import Mathlib

/-!
Verification of the easycert command-line tool (easycert.go).

The Go source is shallowly embedded: paths are strings, the filesystem is an
association list from paths to entries, ambient OS failures (mkdir/create/
write/chmod errors, hostname lookup, GOPATH data-directory lookup, template
parsing) are oracles carried in a `World` record, and `main`'s control flow
is translated into pure functions that return an outcome, a final world and
the list of operations performed.
-/

namespace EasyCert

/-! ## Constants (easycert.go lines 27-52) -/

def DIR_ROOT : String := ".cert"
def NAME_CA : String := "ca"
def FILE_CONFIG : String := "openssl.cfg"
def FILE_SERVER_GO : String := "z-cert_srv.go"
def FILE_CLIENT_GO : String := "z-cert_cl.go"

def EXT_CERT : String := ".crt"
def EXT_KEY : String := ".key"
def EXT_REVOK : String := ".crl"
def EXT_REQUEST : String := ".csr"
def EXT_CERT_AND_KEY : String := ".pem"

/-! ## Go `path/filepath` primitives (Unix rules, `os.PathSeparator = '/'`)

`filepath.Join` joins its non-empty elements with `'/'` and applies
`filepath.Clean`.  `Clean` is implemented by its specified component
semantics: split on slashes, drop empty and `.` components, let `..`
remove the preceding component (or survive at the start of a relative
path, or vanish at the root), then reassemble. -/

/-- Prepend a character to the first group produced by `splitSlash`. -/
def consHead (c : Char) : List (List Char) → List (List Char)
  | [] => [[c]]
  | g :: gs => (c :: g) :: gs

/-- Split a character list on `'/'` (groups keep no separators). -/
def splitSlash : List Char → List (List Char)
  | [] => [[]]
  | c :: cs => if c = '/' then [] :: splitSlash cs else consHead c (splitSlash cs)

/-- One step of `filepath.Clean`'s component processing.  The stack holds the
surviving components in reverse order. -/
def cleanStep (rooted : Bool) (stack : List (List Char)) (c : List Char) : List (List Char) :=
  if c = [] ∨ c = ['.'] then stack
  else if c = ['.', '.'] then
    match stack with
    | [] => if rooted then [] else [c]
    | top :: rest => if top = ['.', '.'] then c :: top :: rest else rest
  else c :: stack

/-- Join components with `'/'`. -/
def joinComps : List (List Char) → List Char
  | [] => []
  | [g] => g
  | g :: gs => g ++ '/' :: joinComps gs

/-- Reassemble the cleaned component stack into a path. -/
def renderClean (rooted : Bool) (stack : List (List Char)) : List Char :=
  if rooted then '/' :: joinComps stack.reverse
  else if stack = [] then ['.']
  else joinComps stack.reverse

/-- Go's `filepath.Clean` for Unix paths. -/
def goClean (p : String) : String :=
  match p.data with
  | [] => "."
  | c :: cs =>
    let rooted := c = '/'
    ⟨renderClean rooted ((splitSlash (c :: cs)).foldl (cleanStep rooted) [])⟩

/-- Go's `filepath.Join` on two elements: empty elements are skipped and the
result is cleaned; if every element is empty the result is `""`. -/
def goJoin (a b : String) : String :=
  if a = "" then (if b = "" then "" else goClean b)
  else if b = "" then goClean a
  else goClean (a ++ "/" ++ b)

/-- Go's `filepath.Base`: `""` gives `"."`; trailing slashes are dropped;
everything up to the final slash is dropped; an all-slash path gives `"/"`. -/
def goBase (p : String) : String :=
  if p.data = [] then "."
  else
    let r := p.data.reverse.dropWhile (fun c => c = '/')
    if r = [] then "/"
    else ⟨(r.takeWhile (fun c => c ≠ '/')).reverse⟩

end EasyCert

namespace EasyCert

/-! ## Directory and file layout (easycert.go lines 54-114)

`init` resolves the layout from the user's home directory; the global
`Dir`/`File` singletons become explicit records passed to each operation. -/

/-- The `DirPath` structure (lines 54-64). -/
structure DirPath where
  root : String
  cert : String
  newCert : String
  key : String
  revok : String
deriving DecidableEq

/-- The bookkeeping members of the `FilePath` structure set by `init`
(lines 108-113): configuration, index and serial files. -/
structure BookPaths where
  config : String
  index : String
  serial : String
deriving DecidableEq

/-- The per-invocation members of the `FilePath` structure set by `main`
(lines 259-261, 270-271): certificate, key and request files. -/
structure FilePaths where
  cert : String := ""
  key : String := ""
  request : String := ""
deriving DecidableEq

/-- `init` (lines 98-106): the directory layout under the user's home. -/
def initDir (home : String) : DirPath :=
  let root := goJoin home DIR_ROOT
  { root := root
    cert := goJoin root "certs"
    newCert := goJoin root "newcerts"
    key := goJoin root "private"
    revok := goJoin root "crl" }

/-- `init` (lines 108-113): the bookkeeping file paths under the root. -/
def initBook (home : String) : BookPaths :=
  let root := (initDir home).root
  { config := goJoin root FILE_CONFIG
    index := goJoin root "index.txt"
    serial := goJoin root "serial" }

/-- `main` lines 259-261: absolute artifact paths for a logical name. -/
def mkAbs (d : DirPath) (filename : String) : FilePaths :=
  { cert := goJoin d.cert (filename ++ EXT_CERT)
    key := goJoin d.key (filename ++ EXT_KEY)
    request := goJoin d.root (filename ++ EXT_REQUEST) }

/-! ## Filesystem and ambient-failure model

The filesystem is an association list from paths to entries; the first
binding for a path is the current one (creating a file prepends, which also
models `O_TRUNC`).  OS-level failures that do not depend on the modelled
state (EACCES and the like, hostname lookup, the GOPATH data directory,
template parsing and rendering) are oracles carried by the world. -/

/-- A filesystem entry: a directory or a file, with permission bits. -/
inductive Entry where
  | dir (perm : Nat)
  | file (content : String) (perm : Nat)
deriving DecidableEq

/-- The filesystem: newest binding for a path first. -/
abbrev FS := List (String × Entry)

/-- `os.Stat` succeeding, i.e. the path exists. -/
def existsIn (fs : FS) (p : String) : Bool :=
  fs.any (fun kv => kv.1 == p)

/-- Current entry for a path. -/
def lookupFS : FS → String → Option Entry
  | [], _ => none
  | (q, e) :: rest, p => if q = p then some e else lookupFS rest p

/-- Replace the permission bits of an entry. -/
def setPerm : Entry → Nat → Entry
  | .dir _, m => .dir m
  | .file c _, m => .file c m

/-- `os.Chmod`: update the permission bits of the current entry. -/
def fsChmod : FS → String → Nat → FS
  | [], _, _ => []
  | (q, e) :: rest, p, m =>
    if q = p then (q, setPerm e m) :: rest else (q, e) :: fsChmod rest p m

/-- `File.Write`: replace the content of the current entry. -/
def fsWrite : FS → String → String → FS
  | [], _, _ => []
  | (q, e) :: rest, p, s =>
    if q = p then (q, .file s (match e with | .dir m => m | .file _ m => m)) :: rest
    else (q, e) :: fsWrite rest p s

/-- `ioutil.ReadFile`: the content of an existing regular file. -/
def readFS (fs : FS) (p : String) : Option String :=
  match lookupFS fs p with
  | some (.file c _) => some c
  | _ => none

/-- The world: the filesystem plus oracles for ambient OS failures. -/
structure World where
  fs : FS
  mkdirFails : List String := []
  createFails : List String := []
  writeFails : List String := []
  chmodFails : List String := []
  hostname : Option String := some "localhost"
  dataDirOk : Bool := true
  tmplExists : Bool := true
  tmplParseOk : Bool := true
  tmplExecOk : Bool := true
deriving DecidableEq

end EasyCert

namespace EasyCert

/-! ## SetupDir (easycert.go lines 369-447)

Each fallible call is translated in source order; `log.Fatal` becomes an
`Except.error` carrying the message and the world at the moment of failure.
The template rendered into the configuration file is external data (installed
through `go get`), so its output is abstracted by `renderConfig`. -/

/-- Modelled from the spec: the configuration template `openssl.cfg.tmpl` is
not part of src; its rendering from the root directory, the local hostname
and the fixed loopback alternate name (lines 427-436) is abstracted as an
unspecified deterministic function of those inputs. -/
def renderConfig (rootDir hostName : String) : String :=
  rootDir ++ ";" ++ hostName ++ ";IP.1 = 127.0.0.1"

/-- `SetupDir` (lines 369-447).  A `log.Fatal` becomes `Except.error` with
the message; since the process exits at once, the partially-created on-disk
state at the moment of failure is not observable by any later step and is
not tracked.  The returned list is the output of `log.Print` calls,
i.e. errors that were logged without aborting. -/
def setupDir (d : DirPath) (bk : BookPaths) (w : World) :
    Except String (World × List String) :=
  -- for _, v := range {Root, Cert, NewCert, Key, Revok} { os.Mkdir(v, 0755) }
  if existsIn w.fs d.root || w.mkdirFails.contains d.root then
    .error ("mkdir " ++ d.root) else
  let w1 : World := { w with fs := (d.root, Entry.dir 0o755) :: w.fs }
  if existsIn w1.fs d.cert || w.mkdirFails.contains d.cert then
    .error ("mkdir " ++ d.cert) else
  let w2 : World := { w1 with fs := (d.cert, Entry.dir 0o755) :: w1.fs }
  if existsIn w2.fs d.newCert || w.mkdirFails.contains d.newCert then
    .error ("mkdir " ++ d.newCert) else
  let w3 : World := { w2 with fs := (d.newCert, Entry.dir 0o755) :: w2.fs }
  if existsIn w3.fs d.key || w.mkdirFails.contains d.key then
    .error ("mkdir " ++ d.key) else
  let w4 : World := { w3 with fs := (d.key, Entry.dir 0o755) :: w3.fs }
  if existsIn w4.fs d.revok || w.mkdirFails.contains d.revok then
    .error ("mkdir " ++ d.revok) else
  let w5 : World := { w4 with fs := (d.revok, Entry.dir 0o755) :: w4.fs }
  -- os.Chmod(Dir.Key, 0710) -- the key directory was just created above
  if w.chmodFails.contains d.key then .error ("chmod " ++ d.key) else
  let w6 : World := { w5 with fs := fsChmod w5.fs d.key 0o710 }
  -- os.Create(File.Index)
  if w.createFails.contains bk.index then .error ("create " ++ bk.index) else
  let w7 : World := { w6 with fs := (bk.index, Entry.file "" 0o666) :: w6.fs }
  -- os.Create(File.Serial); file.Write([]byte{'0', '1', '\n'})
  if w.createFails.contains bk.serial then .error ("create " ++ bk.serial) else
  let w8 : World := { w7 with fs := (bk.serial, Entry.file "" 0o666) :: w7.fs }
  if w.writeFails.contains bk.serial then .error ("write " ++ bk.serial) else
  let w9 : World := { w8 with fs := fsWrite w8.fs bk.serial "01\n" }
  -- os.Hostname()
  match w.hostname with
  | none => .error ("Could not get hostname")
  | some host =>
    -- build.Import(_DIR_CONFIG, ...)
    if !w.dataDirOk then .error ("Data directory not found") else
    -- os.Stat(configTemplate) / template.ParseFiles(configTemplate)
    if !w.tmplExists then .error ("Configuration template not found") else
    if !w.tmplParseOk then .error ("Parsing error in configuration") else
    -- os.Create(File.Config)
    if w.createFails.contains bk.config then .error ("create " ++ bk.config) else
    let w10 : World := { w9 with fs := (bk.config, Entry.file "" 0o666) :: w9.fs }
    -- tmpl.Execute(tmpConfigFile, data)
    if !w.tmplExecOk || w.writeFails.contains bk.config then
      .error ("template execute " ++ bk.config) else
    let w11 : World := { w10 with fs := fsWrite w10.fs bk.config (renderConfig d.root host) }
    -- os.Chmod(File.Config, 0600): on error this is only log.Print (line 443)
    if w.chmodFails.contains bk.config then .ok (w11, ["chmod " ++ bk.config])
    else .ok ({ w11 with fs := fsChmod w11.fs bk.config 0o600 }, [])

/-- `main` lines 357-362: the `-new` guard followed by `SetupDir`; the error
component, the world and the logged errors.  On the guard error the world is
exactly the entry world: nothing was created or modified. -/
def runNew (d : DirPath) (bk : BookPaths) (w : World) :
    Option String × World × List String :=
  if existsIn w.fs d.root then
    (some ("The directory structure exists: " ++ d.root), w, [])
  else
    match setupDir d bk w with
    | .error m => (some m, w, [])
    | .ok (w', log) => (none, w', log)

/-- The conditions under which `setupDir` runs to completion.  The chmod of
the configuration file is deliberately absent: its failure is not fatal. -/
def setupOk (d : DirPath) (bk : BookPaths) (w : World) : Bool :=
  !existsIn w.fs d.root && !w.mkdirFails.contains d.root &&
  !existsIn w.fs d.cert && !w.mkdirFails.contains d.cert &&
  !existsIn w.fs d.newCert && !w.mkdirFails.contains d.newCert &&
  !existsIn w.fs d.key && !w.mkdirFails.contains d.key &&
  !existsIn w.fs d.revok && !w.mkdirFails.contains d.revok &&
  !w.chmodFails.contains d.key &&
  !w.createFails.contains bk.index &&
  !w.createFails.contains bk.serial && !w.writeFails.contains bk.serial &&
  w.hostname.isSome && w.dataDirOk && w.tmplExists && w.tmplParseOk &&
  !w.createFails.contains bk.config && w.tmplExecOk && !w.writeFails.contains bk.config

/-- The eight paths managed by `SetupDir` are pairwise distinct (true of the
layout `init` computes from any sane home directory). -/
def PathsOk (d : DirPath) (bk : BookPaths) : Prop :=
  d.root ≠ d.cert ∧ d.root ≠ d.newCert ∧ d.root ≠ d.key ∧ d.root ≠ d.revok ∧
  d.root ≠ bk.index ∧ d.root ≠ bk.serial ∧ d.root ≠ bk.config ∧
  d.cert ≠ d.newCert ∧ d.cert ≠ d.key ∧ d.cert ≠ d.revok ∧ d.cert ≠ bk.index ∧
  d.cert ≠ bk.serial ∧ d.cert ≠ bk.config ∧
  d.newCert ≠ d.key ∧ d.newCert ≠ d.revok ∧ d.newCert ≠ bk.index ∧
  d.newCert ≠ bk.serial ∧ d.newCert ≠ bk.config ∧
  d.key ≠ d.revok ∧ d.key ≠ bk.index ∧ d.key ≠ bk.serial ∧ d.key ≠ bk.config ∧
  d.revok ≠ bk.index ∧ d.revok ≠ bk.serial ∧ d.revok ≠ bk.config ∧
  bk.index ≠ bk.serial ∧ bk.index ≠ bk.config ∧
  bk.serial ≠ bk.config

instance (d : DirPath) (bk : BookPaths) : Decidable (PathsOk d bk) := by
  unfold PathsOk; infer_instance

/-- The logged (non-fatal) errors of a `SetupDir` run. -/
def setupLog : Except String (World × List String) → List String
  | .ok (_, l) => l
  | .error _ => []

/-- The filesystem produced by a completed `SetupDir` run, before the final
chmod of the configuration file. -/
def setupFS (d : DirPath) (bk : BookPaths) (w : World) (host : String) : FS :=
  fsWrite
    ((bk.config, Entry.file "" 0o666) ::
      fsWrite
        ((bk.serial, Entry.file "" 0o666) ::
          (bk.index, Entry.file "" 0o666) ::
            fsChmod
              ((d.revok, Entry.dir 0o755) ::
                (d.key, Entry.dir 0o755) ::
                  (d.newCert, Entry.dir 0o755) ::
                    (d.cert, Entry.dir 0o755) ::
                      (d.root, Entry.dir 0o755) :: w.fs)
              d.key 0o710)
        bk.serial "01\n")
    bk.config (renderConfig d.root host)

end EasyCert

namespace EasyCert

/-! ## Flags and command dispatch (easycert.go lines 146-367)

The flag variables become a record; `flag.NFlag()` is carried explicitly.
`flag.Args()[0]` on an empty argument list and `filename[0]` on an empty
string are Go runtime panics (index out of range), modelled by a dedicated
outcome distinct from `log.Fatal`'s user-facing error. -/

/-- The command-line flag variables (lines 146-180). -/
structure Flags where
  nflag : Nat := 1
  isNew : Bool := false
  isCA : Bool := false
  rsaSize : Int := 2048
  years : Int := 1
  isRequest : Bool := false
  isSignReq : Bool := false
  host : String := ""
  isGoLang : Bool := false
  caCert : String := NAME_CA
  serverCert : String := ""
  isCheck : Bool := false
  isCert : Bool := false
  isKey : Bool := false
  isCat : Bool := false
  isInfo : Bool := false
  isEndDate : Bool := false
  isHash : Bool := false
  isFullInfo : Bool := false
  isIssuer : Bool := false
  isName : Bool := false
  isCertList : Bool := false
  isReqList : Bool := false
deriving DecidableEq

/-- Result of the path-setting `switch` of `main` (lines 249-285). -/
inductive Resolved where
  | panicked
  | fatal (msg : String)
  | ok (filename : String) (files : FilePaths) (caPath : String)
deriving DecidableEq

/-- The `switch` of `main` (lines 249-285): set absolute paths, or abort,
or hit an out-of-range index. -/
def resolvePaths (d : DirPath) (fl : Flags) (args : List String) : Resolved :=
  if fl.isRequest || fl.isSignReq || fl.isCA then
    if fl.isCA then .ok NAME_CA (mkAbs d NAME_CA) fl.caCert
    else
      match args.head? with
      | none => .panicked      -- flag.Args()[0] with no arguments
      | some n => .ok n (mkAbs d n) fl.caCert
  else if fl.isGoLang then
    if fl.caCert = "" || fl.serverCert = "" then
      .fatal "Missing required parameter in -ca-cert or -server-cert flag"
    else
      let ca :=
        match fl.caCert.data.head? with
        | some c =>
          if c ≠ '.' && c ≠ '/' then goJoin d.cert (fl.caCert ++ EXT_CERT)
          else fl.caCert
        | none => fl.caCert    -- unreachable: caCert ≠ ""
      .ok ""
        { cert := goJoin d.cert (fl.serverCert ++ EXT_CERT)
          key := goJoin d.key (fl.serverCert ++ EXT_KEY) } ca
  else if fl.isNew then .ok "" {} fl.caCert
  else
    match args.head? with
    | none => .panicked        -- flag.Args()[0] with no arguments
    | some fn =>
      match fn.data.head? with
      | none => .panicked      -- filename[0] on an empty string
      | some c =>
        if c ≠ '.' && c ≠ '/' then
          if fl.isCert then .ok (goJoin d.cert (fn ++ EXT_CERT)) {} fl.caCert
          else if fl.isKey then .ok (goJoin d.key (fn ++ EXT_KEY)) {} fl.caCert
          else .ok fn {} fl.caCert
        else .ok fn {} fl.caCert

/-- How an invocation of the program ends. -/
inductive Outcome where
  | exit0
  | fatal (msg : String)
  | panicked
deriving DecidableEq

/-- The mutually-exclusive-by-claim operation modes. -/
inductive Op where
  | check
  | cat
  | info
  | request
  | sign
  | golang
  | newDir
  | ca (years : Int)
  | listCerts
  | listReqs
deriving DecidableEq

/-- Modelled from the spec: `NewRequest` is not in src; per the spec it
invokes the external tool to generate the private key and the certificate
request at the resolved paths. -/
def newRequest (fp : FilePaths) (w : World) : World :=
  { w with fs := (fp.request, Entry.file "request" 0o644) ::
                 (fp.key, Entry.file "key" 0o600) :: w.fs }

/-- Modelled from the spec: `SignReq` is not in src; per the spec it invokes
the external tool to sign the request, producing the certificate. -/
def signReq (fp : FilePaths) (w : World) : World :=
  { w with fs := (fp.cert, Entry.file "certificate" 0o644) :: w.fs }

/-- Modelled from the spec: `BuildCA` is not in src; per the spec it invokes
the external tool to create the self-signed CA certificate and key. -/
def buildCA (fp : FilePaths) (w : World) : World :=
  { w with fs := (fp.cert, Entry.file "ca certificate" 0o644) ::
                 (fp.key, Entry.file "ca key" 0o600) :: w.fs }

/-- Modelled from the spec: the templates `TMPL_SERVER_GO`/`TMPL_CLIENT_GO`
are not in src; rendering the generated source file from the PEM blocks is
abstracted as an unspecified deterministic function of the bytes read. -/
def renderGoFile (which ca cert key : String) : String :=
  which ++ ":" ++ ca ++ ":" ++ cert ++ ":" ++ key

/-- `Cert2Lang` (lines 449-517): read the three PEM files, then create the
two generated Go files with `O_CREATE|O_TRUNC|O_WRONLY`.  The external
`openssl version` / expiry queries do not touch the modelled state. -/
def cert2Lang (caPath : String) (fp : FilePaths) (w : World) :
    Except (String × World) World :=
  match readFS w.fs caPath with
  | none => .error ("read " ++ caPath, w)
  | some caBytes =>
  match readFS w.fs fp.cert with
  | none => .error ("read " ++ fp.cert, w)
  | some certBytes =>
  match readFS w.fs fp.key with
  | none => .error ("read " ++ fp.key, w)
  | some keyBytes =>
  if w.createFails.contains FILE_SERVER_GO then .error ("open " ++ FILE_SERVER_GO, w) else
  let w1 : World := { w with fs :=
    (FILE_SERVER_GO, Entry.file (renderGoFile "server" caBytes certBytes keyBytes) 0o666) :: w.fs }
  if w.writeFails.contains FILE_SERVER_GO then .error ("write " ++ FILE_SERVER_GO, w1) else
  if w.createFails.contains FILE_CLIENT_GO then .error ("open " ++ FILE_CLIENT_GO, w1) else
  let w2 : World := { w1 with fs :=
    (FILE_CLIENT_GO, Entry.file (renderGoFile "client" caBytes certBytes keyBytes) 0o666) :: w1.fs }
  if w.writeFails.contains FILE_CLIENT_GO then .error ("write " ++ FILE_CLIENT_GO, w2) else
  .ok w2

/-- `main` lines 326-345: the request/sign block, entered when at least one
of `-req`/`-sign` is set.  Both can run in a single invocation. -/
def reqSignPhase (fp : FilePaths) (fl : Flags) (w : World) :
    Outcome × World × List Op :=
  if fl.isRequest then
    if existsIn w.fs fp.request then
      (.fatal ("Certificate request already exists: " ++ fp.request), w, [])
    else
      let w1 := newRequest fp w
      if fl.isSignReq then
        if existsIn w1.fs fp.cert then
          (.fatal ("Certificate already exists: " ++ fp.cert), w1, [Op.request])
        else (.exit0, signReq fp w1, [Op.request, Op.sign])
      else (.exit0, w1, [Op.request])
  else
    if existsIn w.fs fp.cert then
      (.fatal ("Certificate already exists: " ++ fp.cert), w, [])
    else (.exit0, signReq fp w, [Op.sign])

/-- `main` lines 347-355: the `-lang-go` block: refuse to overwrite either
generated file, then run `Cert2Lang`. -/
def goLangPhase (caPath : String) (fp : FilePaths) (w : World) :
    Outcome × World × List Op :=
  if existsIn w.fs FILE_SERVER_GO then
    (.fatal ("File already exists: " ++ FILE_SERVER_GO), w, [])
  else if existsIn w.fs FILE_CLIENT_GO then
    (.fatal ("File already exists: " ++ FILE_CLIENT_GO), w, [])
  else
    match cert2Lang caPath fp w with
    | .error (m, w') => (.fatal m, w', [])
    | .ok w' => (.exit0, w', [Op.golang])

/-- `main` lines 287-366: the dispatch chain run once the absolute paths are
resolved.  The informational modes exit before the file-creating ones. -/
def dispatchPhase (d : DirPath) (bk : BookPaths) (fl : Flags) (fp : FilePaths)
    (caPath : String) (w : World) : Outcome × World × List Op :=
  if fl.isCheck then
    (.exit0, w, if fl.isCert || fl.isKey then [Op.check] else [])
  else if fl.isCat then
    (.exit0, w, if fl.isCert || fl.isKey then [Op.cat] else [])
  else if fl.isInfo then
    (.exit0, w,
      if fl.isFullInfo || fl.isEndDate || fl.isHash || fl.isIssuer || fl.isName
      then [Op.info] else [])
  else if fl.isRequest || fl.isSignReq then reqSignPhase fp fl w
  else if fl.isGoLang then goLangPhase caPath fp w
  else if fl.isNew then
    match runNew d bk w with
    | (some m, w', _) => (.fatal m, w', [])
    | (none, w', _) =>
      if fl.isCA then (.exit0, buildCA fp w', [Op.newDir, Op.ca 10])
      else (.exit0, w', [Op.newDir])
  else if fl.isCA then (.exit0, buildCA fp w, [Op.ca 10])
  else (.exit0, w, [])

/-- `main` (lines 216-367): flag gate, list block, path resolution, then the
dispatch chain.  Returns how the process ended, the final world, and the
operation modes performed, in order. -/
def runMain (d : DirPath) (bk : BookPaths) (fl : Flags) (args : List String)
    (w : World) : Outcome × World × List Op :=
  if fl.nflag = 0 then (.fatal "Generate and handle certificates", w, []) else
  -- lines 227-247: the list block runs only without positional arguments
  if args.isEmpty && (fl.isCertList || fl.isReqList) then
    if fl.isReqList then
      (.exit0, w, (if fl.isCertList then [Op.listCerts] else []) ++ [Op.listReqs])
    else (.exit0, w, [Op.listCerts])
  else
  match resolvePaths d fl args with
  | .panicked => (.panicked, w, [])
  | .fatal m => (.fatal m, w, [])
  | .ok _ fp caPath => dispatchPhase d bk fl fp caPath w

/-! ## Listing (easycert.go lines 227-247, 519-531) -/

/-- `filepath.Glob(dir + "/*" + ext)`: after `Glob` splits the pattern, a
path matches when it is `dir ++ "/" ++ b` for a separator-free `b` that ends
in `ext` (`*` matches any non-separator run). -/
def globMatch (dir ext : String) (p : String) : Bool :=
  let pre := dir.data ++ ['/']
  (p.data.take pre.length == pre) &&
  (p.data.drop pre.length).all (fun c => c ≠ '/') &&
  ext.data.isSuffixOf (p.data.drop pre.length)

/-- The paths of the filesystem matching the glob pattern. -/
def globDir (fs : FS) (dir ext : String) : List String :=
  (fs.map Prod.fst).filter (globMatch dir ext)

/-- `printCert` (lines 519-531): the printed entries, one per match, each the
base name of the match (tab separation abstracted). -/
def printCert (cert : List String) : List String :=
  cert.map goBase

/-- `-lc` (lines 228-235): names printed for `Glob(Join(Dir.Cert, "*.crt"))`. -/
def listCertNames (d : DirPath) (fs : FS) : List String :=
  printCert (globDir fs d.cert EXT_CERT)

/-- `-lr` (lines 236-243): names printed for `Glob(Join(Dir.Root, "*.csr"))`. -/
def listReqNames (d : DirPath) (fs : FS) : List String :=
  printCert (globDir fs d.root EXT_REQUEST)

/-! ## The RSA key-size flag (easycert.go lines 118-144, 150) -/

def errMinSize : String := "key size must be at least of 2048"
def errSize : String := "key size must be multiple of 1024"

/-- Accumulate decimal digits; `none` on a non-digit. -/
def digitsToNat (acc : Nat) : List Char → Option Nat
  | [] => some acc
  | c :: cs => if c.isDigit then digitsToNat (acc * 10 + (c.toNat - '0'.toNat)) cs else none

/-- Go's `strconv.Atoi` on a 64-bit platform: optional sign, at least one
digit, and the value must fit in `int64`. -/
def goAtoi (s : String) : Option Int :=
  let signAndDigits : Bool × List Char :=
    match s.data with
    | '-' :: rest => (true, rest)
    | '+' :: rest => (false, rest)
    | l => (false, l)
  match signAndDigits.2 with
  | [] => none
  | ds =>
    match digitsToNat 0 ds with
    | none => none
    | some n =>
      let v : Int := if signAndDigits.1 then -(n : Int) else (n : Int)
      if v < -(2 ^ 63) || (2 ^ 63 - 1 : Int) < v then none else some v

/-- Default of the `RSASize` flag variable (line 150). -/
def rsaSizeDefault : Int := 2048

/-- `rsaSizeT.Set` (lines 126-140): parse, validate, and only then assign.
Returns the error (if any) and the stored size afterwards. -/
def rsaSizeSet (value : String) (s : Int) : Option String × Int :=
  match goAtoi value with
  | none => (some "parse error", s)
  | some i =>
    if i < 2048 then (some errMinSize, s)
    else if i % 1024 ≠ 0 then (some errSize, s)
    else (none, i)

end EasyCert

namespace EasyCert

/-! ## Concrete instances used by the witnesses -/

/-- A concrete home directory. -/
def homePath : String := "/home/u"

/-- The layout `init` derives from `homePath`. -/
def dirs : DirPath := initDir homePath

/-- The bookkeeping paths `init` derives from `homePath`. -/
def books : BookPaths := initBook homePath

/-- A world with an empty filesystem and no ambient failures. -/
def emptyWorld : World := { fs := [] }

/-- A world where the root directory already exists. -/
def rootWorld : World := { fs := [(dirs.root, Entry.dir 0o755)] }

/-- A world where only the chmod of the configuration file fails. -/
def badChmodWorld : World := { fs := [], chmodFails := [books.config] }

/-- A full `SetupDir` run from the empty world. -/
def setupExample : Except String (World × List String) :=
  setupDir dirs books emptyWorld

/-- The world produced by `setupExample`. -/
def setupExampleWorld : World :=
  match setupExample with
  | .ok (w, _) => w
  | .error _ => emptyWorld

/-- A world where the request file for the name `srv` already exists. -/
def reqWorld : World :=
  { fs := [((mkAbs dirs "srv").request, Entry.file "" 0o644)] }

/-- A filesystem holding one certificate and one request artifact. -/
def listFS : FS :=
  [(dirs.cert ++ "/srv.crt", Entry.file "" 0o644),
   (dirs.root ++ "/srv.csr", Entry.file "" 0o644)]

end EasyCert

namespace EasyCert

/-! ## Helper lemmas on the path primitives -/

theorem splitSlash_ne_nil (l : List Char) : splitSlash l ≠ [] := by
  induction l with
  | nil => simp [splitSlash]
  | cons c cs ih =>
    simp only [splitSlash]
    split
    · simp
    · cases h : splitSlash cs with
      | nil => exact absurd h ih
      | cons g gs => simp [consHead]

theorem splitSlash_no_slash (l : List Char) (h : '/' ∉ l) : splitSlash l = [l] := by
  induction l with
  | nil => rfl
  | cons c cs ih =>
    have hc : c ≠ '/' := fun hc => h (by simp [hc])
    have hcs : '/' ∉ cs := fun hm => h (by simp [hm])
    simp only [splitSlash, if_neg hc, ih hcs, consHead]

theorem splitSlash_append (a b : List Char) :
    splitSlash (a ++ '/' :: b) = splitSlash a ++ splitSlash b := by
  induction a with
  | nil => simp [splitSlash]
  | cons c cs ih =>
    by_cases hc : c = '/'
    · subst hc
      simp [splitSlash, ih]
    · simp only [List.cons_append, splitSlash, if_neg hc, List.append_eq]
      rw [ih]
      cases h : splitSlash cs with
      | nil => exact absurd h (splitSlash_ne_nil cs)
      | cons g gs => simp [consHead]

theorem cleanStep_normal (rooted : Bool) (st : List (List Char)) (c : List Char)
    (h0 : c ≠ []) (h1 : c ≠ ['.']) (h2 : c ≠ ['.', '.']) :
    cleanStep rooted st c = c :: st := by
  simp only [cleanStep]
  rw [if_neg (by simp [h0, h1]), if_neg h2]

theorem joinComps_cons (g : List Char) (l : List (List Char)) (h : l ≠ []) :
    joinComps (g :: l) = g ++ '/' :: joinComps l := by
  cases l with
  | nil => exact absurd rfl h
  | cons g' l' => rfl

theorem joinComps_concat (l : List (List Char)) (x : List Char) :
    ∃ pre, joinComps (l ++ [x]) = pre ++ x := by
  induction l with
  | nil => exact ⟨[], rfl⟩
  | cons g gs ih =>
    obtain ⟨pre, hp⟩ := ih
    refine ⟨g ++ '/' :: pre, ?_⟩
    rw [List.cons_append, joinComps_cons g (gs ++ [x]) (by simp), hp]
    simp

theorem data_append_three (a b : String) :
    (a ++ "/" ++ b).data = a.data ++ '/' :: b.data := by
  have h1 : ("/" : String).data = ['/'] := rfl
  rw [String.data_append, String.data_append, h1, List.append_assoc]
  rfl

theorem data_nil_iff (s : String) : s.data = [] ↔ s = "" := by
  constructor
  · intro h
    cases s with
    | mk l => cases h; rfl
  · intro h; subst h; rfl

/-- A normal final component survives `Clean`: joining a non-empty path with
a separator-free component distinct from `.` and `..` yields a path that ends
in that component. -/
theorem goJoin_suffix (a b : String) (ha : a ≠ "")
    (hb0 : b.data ≠ []) (hbs : '/' ∉ b.data)
    (hb1 : b.data ≠ ['.']) (hb2 : b.data ≠ ['.', '.']) :
    ∃ pre, (goJoin a b).data = pre ++ b.data := by
  have hbne : b ≠ "" := fun h => hb0 ((data_nil_iff b).mpr h)
  have hj : goJoin a b = goClean (a ++ "/" ++ b) := by
    simp only [goJoin, if_neg ha, if_neg hbne]
  obtain ⟨c, as, hdata⟩ : ∃ c as, a.data = c :: as := by
    cases h : a.data with
    | nil => exact absurd ((data_nil_iff a).mp h) ha
    | cons c as => exact ⟨c, as, rfl⟩
  have hfull : (a ++ "/" ++ b).data = c :: (as ++ '/' :: b.data) := by
    rw [data_append_three, hdata]; rfl
  rw [hj]
  simp only [goClean, hfull]
  have hsplit : splitSlash (c :: (as ++ '/' :: b.data)) =
      splitSlash (c :: as) ++ [b.data] := by
    have : c :: (as ++ '/' :: b.data) = (c :: as) ++ '/' :: b.data := by simp
    rw [this, splitSlash_append, splitSlash_no_slash _ hbs]
  rw [hsplit, List.foldl_append]
  set st := (splitSlash (c :: as)).foldl (cleanStep (c = '/')) [] with hst
  have hstep : (cleanStep (c = '/')) st b.data = b.data :: st :=
    cleanStep_normal _ _ _ hb0 hb1 hb2
  simp only [List.foldl_cons, List.foldl_nil, hstep]
  simp only [renderClean]
  by_cases hr : (c = '/' : Bool) = true
  · rw [if_pos hr]
    obtain ⟨pre, hp⟩ := joinComps_concat st.reverse b.data
    exact ⟨'/' :: pre, by simp [List.reverse_cons, hp]⟩
  · rw [if_neg hr, if_neg (by simp)]
    obtain ⟨pre, hp⟩ := joinComps_concat st.reverse b.data
    exact ⟨pre, by simp [List.reverse_cons, hp]⟩

theorem takeWhile_all_append (p : Char → Bool) (l s : List Char) (y : Char)
    (hl : ∀ c ∈ l, p c = true) (hy : p y = false) :
    (l ++ y :: s).takeWhile p = l := by
  induction l with
  | nil => simp [List.takeWhile_cons, hy]
  | cons x xs ih =>
    have hx : p x = true := hl x (by simp)
    simp only [List.cons_append, List.takeWhile_cons, hx]
    simp [ih fun c hc => hl c (by simp [hc])]

/-- `filepath.Base` of `dir ++ "/" ++ b` for a non-empty separator-free `b`
is `b` itself. -/
theorem goBase_append (a b : List Char) (hb0 : b ≠ []) (hbs : ∀ c ∈ b, c ≠ '/') :
    goBase ⟨a ++ '/' :: b⟩ = ⟨b⟩ := by
  have hdata : (String.mk (a ++ '/' :: b)).data = a ++ '/' :: b := rfl
  have hne : a ++ '/' :: b ≠ [] := by simp
  obtain ⟨x, xs, hbrev⟩ : ∃ x xs, b.reverse = x :: xs := by
    cases h : b.reverse with
    | nil => exact absurd (by simpa using congrArg List.reverse h) hb0
    | cons x xs => exact ⟨x, xs, rfl⟩
  have hrev : (a ++ '/' :: b).reverse = b.reverse ++ '/' :: a.reverse := by
    simp [List.reverse_append]
  have hx_mem : x ∈ b := by
    have : x ∈ b.reverse := by rw [hbrev]; simp
    simpa using this
  have hx : x ≠ '/' := hbs x hx_mem
  have hdrop : (b.reverse ++ '/' :: a.reverse).dropWhile (fun c => decide (c = '/')) =
      b.reverse ++ '/' :: a.reverse := by
    rw [hbrev]
    simp only [List.cons_append, List.dropWhile_cons]
    simp [hx]
  have htake : (b.reverse ++ '/' :: a.reverse).takeWhile (fun c => decide (c ≠ '/')) =
      b.reverse := by
    apply takeWhile_all_append
    · intro c hc
      simpa using hbs c (by simpa using hc)
    · simp
  simp only [goBase, hdata, if_neg hne, hrev, hdrop]
  rw [if_neg (by rw [hbrev]; simp)]
  rw [htake]
  simp

end EasyCert

namespace EasyCert

theorem existsIn_cons (q : String) (e : Entry) (fs : FS) (p : String) :
    existsIn ((q, e) :: fs) p = ((q == p) || existsIn fs p) := by
  simp [existsIn]

end EasyCert

namespace EasyCert

theorem setupDir_isOk_iff (d : DirPath) (bk : BookPaths) (w : World) (hok : PathsOk d bk) :
    (setupDir d bk w).isOk = true ↔ setupOk d bk w = true := by
  obtain ⟨h1, h2, h3, h4, h5, h6, h7, h8, h9, h10, h11, h12, h13, h14, h15, h16, h17,
    h18, h19, h20, h21, h22, h23, h24, h25, h26, h27, h28⟩ := hok
  simp only [setupOk, Bool.and_eq_true, Bool.not_eq_true']
  unfold setupDir
  simp only [existsIn_cons, Bool.or_eq_true, beq_iff_eq, false_or,
    h1, h2, h3, h4, h5, h6, h7, h8, h9, h10, h11, h12, h13, h14, h15, h16, h17,
    h18, h19, h20, h21, h22, h23, h24, h25, h26, h27, h28,
    Ne.symm h1, Ne.symm h2, Ne.symm h3, Ne.symm h4, Ne.symm h5, Ne.symm h6, Ne.symm h7,
    Ne.symm h8, Ne.symm h9, Ne.symm h10, Ne.symm h11, Ne.symm h12, Ne.symm h13,
    Ne.symm h14, Ne.symm h15, Ne.symm h16, Ne.symm h17, Ne.symm h18, Ne.symm h19,
    Ne.symm h20, Ne.symm h21, Ne.symm h22, Ne.symm h23, Ne.symm h24, Ne.symm h25,
    Ne.symm h26, Ne.symm h27, Ne.symm h28]
  by_cases c1 : existsIn w.fs d.root = true ∨ w.mkdirFails.contains d.root = true
  · rw [if_pos c1]; rcases c1 with c | c <;> simp_all [Except.isOk, Except.toBool]
  rw [if_neg c1]
  by_cases c2 : existsIn w.fs d.cert = true ∨ w.mkdirFails.contains d.cert = true
  · rw [if_pos c2]; rcases c2 with c | c <;> simp_all [Except.isOk, Except.toBool]
  rw [if_neg c2]
  by_cases c3 : existsIn w.fs d.newCert = true ∨ w.mkdirFails.contains d.newCert = true
  · rw [if_pos c3]; rcases c3 with c | c <;> simp_all [Except.isOk, Except.toBool]
  rw [if_neg c3]
  by_cases c4 : existsIn w.fs d.key = true ∨ w.mkdirFails.contains d.key = true
  · rw [if_pos c4]; rcases c4 with c | c <;> simp_all [Except.isOk, Except.toBool]
  rw [if_neg c4]
  by_cases c5 : existsIn w.fs d.revok = true ∨ w.mkdirFails.contains d.revok = true
  · rw [if_pos c5]; rcases c5 with c | c <;> simp_all [Except.isOk, Except.toBool]
  rw [if_neg c5]
  by_cases c6 : w.chmodFails.contains d.key = true
  · rw [if_pos c6]; simp_all [Except.isOk, Except.toBool]
  rw [if_neg c6]
  by_cases c7 : w.createFails.contains bk.index = true
  · rw [if_pos c7]; simp_all [Except.isOk, Except.toBool]
  rw [if_neg c7]
  by_cases c8 : w.createFails.contains bk.serial = true
  · rw [if_pos c8]; simp_all [Except.isOk, Except.toBool]
  rw [if_neg c8]
  by_cases c9 : w.writeFails.contains bk.serial = true
  · rw [if_pos c9]; simp_all [Except.isOk, Except.toBool]
  rw [if_neg c9]
  rcases hh : w.hostname with _ | host
  · simp only [hh]
    simp [Except.isOk, Except.toBool, hh]
  simp only [hh]
  by_cases c10 : (!w.dataDirOk) = true
  · rw [if_pos c10]; simp_all [Except.isOk, Except.toBool]
  rw [if_neg c10]
  by_cases c11 : (!w.tmplExists) = true
  · rw [if_pos c11]; simp_all [Except.isOk, Except.toBool]
  rw [if_neg c11]
  by_cases c12 : (!w.tmplParseOk) = true
  · rw [if_pos c12]; simp_all [Except.isOk, Except.toBool]
  rw [if_neg c12]
  by_cases c13 : w.createFails.contains bk.config = true
  · rw [if_pos c13]; simp_all [Except.isOk, Except.toBool]
  rw [if_neg c13]
  by_cases c14 : (!w.tmplExecOk) = true ∨ w.writeFails.contains bk.config = true
  · rw [if_pos c14]; rcases c14 with c | c <;> simp_all [Except.isOk, Except.toBool]
  rw [if_neg c14]
  by_cases c15 : w.chmodFails.contains bk.config = true
  · rw [if_pos c15]; simp_all [Except.isOk, Except.toBool]
  · rw [if_neg c15]; simp_all [Except.isOk, Except.toBool]
end EasyCert

namespace EasyCert

theorem setupDir_eval (d : DirPath) (bk : BookPaths) (w : World) (hok : PathsOk d bk)
    (hso : setupOk d bk w = true) :
    ∃ host, w.hostname = some host ∧
      setupDir d bk w =
        (if w.chmodFails.contains bk.config then
          .ok ({ w with fs := setupFS d bk w host }, ["chmod " ++ bk.config])
        else .ok ({ w with fs := fsChmod (setupFS d bk w host) bk.config 0o600 }, [])) := by
  obtain ⟨h1, h2, h3, h4, h5, h6, h7, h8, h9, h10, h11, h12, h13, h14, h15, h16, h17,
    h18, h19, h20, h21, h22, h23, h24, h25, h26, h27, h28⟩ := hok
  simp only [setupOk, Bool.and_eq_true, Bool.not_eq_true', and_assoc] at hso
  obtain ⟨a1, a2, a3, a4, a5, a6, a7, a8, a9, a10, a11, a12, a13, a14, a15, a16, a17,
    a18, a19, a20, a21⟩ := hso
  obtain ⟨host, hh⟩ := Option.isSome_iff_exists.mp a15
  simp at a2 a4 a6 a8 a10 a11 a12 a13 a14 a19 a21
  refine ⟨host, hh, ?_⟩
  unfold setupDir
  simp only [existsIn_cons, Bool.or_eq_true, beq_iff_eq, false_or,
    h1, h2, h3, h4, h5, h6, h7, h8, h9, h10, h11, h12, h13, h14, h15, h16, h17,
    h18, h19, h20, h21, h22, h23, h24, h25, h26, h27, h28,
    Ne.symm h1, Ne.symm h2, Ne.symm h3, Ne.symm h4, Ne.symm h5, Ne.symm h6, Ne.symm h7,
    Ne.symm h8, Ne.symm h9, Ne.symm h10, Ne.symm h11, Ne.symm h12, Ne.symm h13,
    Ne.symm h14, Ne.symm h15, Ne.symm h16, Ne.symm h17, Ne.symm h18, Ne.symm h19,
    Ne.symm h20, Ne.symm h21, Ne.symm h22, Ne.symm h23, Ne.symm h24, Ne.symm h25,
    Ne.symm h26, Ne.symm h27, Ne.symm h28]
  rw [if_neg (by simp [a1, a2])]
  rw [if_neg (by simp [a3, a4])]
  rw [if_neg (by simp [a5, a6])]
  rw [if_neg (by simp [a7, a8])]
  rw [if_neg (by simp [a9, a10])]
  rw [if_neg (by simp [a11])]
  rw [if_neg (by simp [a12])]
  rw [if_neg (by simp [a13])]
  rw [if_neg (by simp [a14])]
  simp only [hh]
  rw [if_neg (by simp [a16])]
  rw [if_neg (by simp [a17])]
  rw [if_neg (by simp [a18])]
  rw [if_neg (by simp [a19])]
  rw [if_neg (by simp [a20, a21])]
  simp only [setupFS]

end EasyCert

namespace EasyCert

/-- C2: running the directory initializer while the root directory already
exists fails with an error before anything is created or modified; the world
is returned unchanged. -/
theorem C2_new_guard (d : DirPath) (bk : BookPaths) (w : World)
    (h : existsIn w.fs d.root = true) :
    runNew d bk w = (some ("The directory structure exists: " ++ d.root), w, []) := by
  simp [runNew, h]

/-- C2 witness: the guard fires on a world whose root directory exists. -/
theorem C2_new_guard_witness :
    existsIn rootWorld.fs dirs.root = true ∧
    runNew dirs books rootWorld =
      (some ("The directory structure exists: " ++ dirs.root), rootWorld, []) :=
  ⟨by decide, C2_new_guard dirs books rootWorld (by decide)⟩

/-- C4 (amended): during directory initialization every filesystem error is
fatal — `SetupDir` completes exactly when every step other than the final
chmod of the configuration file succeeds — except that a failure of that
final chmod is only logged and the run still completes. -/
theorem C4_fatal_errors (d : DirPath) (bk : BookPaths) (w : World) (hok : PathsOk d bk) :
    ((setupDir d bk w).isOk = true ↔ setupOk d bk w = true) ∧
    (setupOk d bk w = true → w.chmodFails.contains bk.config = true →
      (setupDir d bk w).isOk = true ∧
      setupLog (setupDir d bk w) = ["chmod " ++ bk.config]) := by
  refine ⟨setupDir_isOk_iff d bk w hok, fun hso hc => ?_⟩
  obtain ⟨host, hh, heq⟩ := setupDir_eval d bk w hok hso
  rw [heq, if_pos hc]
  exact ⟨rfl, rfl⟩

/-- C4 witness: the characterization applied to a concrete world where only
the configuration-file chmod fails. -/
theorem C4_fatal_errors_witness :
    PathsOk dirs books ∧
    (((setupDir dirs books badChmodWorld).isOk = true ↔
        setupOk dirs books badChmodWorld = true) ∧
     (setupOk dirs books badChmodWorld = true →
      badChmodWorld.chmodFails.contains books.config = true →
      (setupDir dirs books badChmodWorld).isOk = true ∧
      setupLog (setupDir dirs books badChmodWorld) = ["chmod " ++ books.config])) :=
  ⟨by decide, C4_fatal_errors dirs books badChmodWorld (by decide)⟩

/-- C4 counterexample: a filesystem error (the chmod of the configuration
file fails) occurs during directory initialization, the error is logged, and
yet the run completes successfully — it is not fatal, contradicting the
claim that every filesystem error terminates the process. -/
theorem C4_counterexample :
    badChmodWorld.chmodFails = [books.config] ∧
    (setupDir dirs books badChmodWorld).isOk = true ∧
    setupLog (setupDir dirs books badChmodWorld) = ["chmod " ++ books.config] :=
  ⟨rfl, by decide, by decide⟩

/-- C8: a successful `SetupDir` leaves the private-key directory with
permission bits `0710` — no bits for `other` — and the root and the other
subdirectories with permission bits `0755`. -/
theorem C8_directory_perms (d : DirPath) (bk : BookPaths) (w w' : World)
    (log : List String) (hok : PathsOk d bk)
    (h : setupDir d bk w = .ok (w', log)) :
    lookupFS w'.fs d.key = some (Entry.dir 0o710) ∧
    lookupFS w'.fs d.cert = some (Entry.dir 0o755) ∧
    lookupFS w'.fs d.newCert = some (Entry.dir 0o755) ∧
    lookupFS w'.fs d.revok = some (Entry.dir 0o755) ∧
    lookupFS w'.fs d.root = some (Entry.dir 0o755) ∧
    0o710 % 8 = 0 := by
  have hso : setupOk d bk w = true := (setupDir_isOk_iff d bk w hok).mp (by rw [h]; rfl)
  obtain ⟨host, hh, heq⟩ := setupDir_eval d bk w hok hso
  rw [heq] at h
  obtain ⟨h1, h2, h3, h4, h5, h6, h7, h8, h9, h10, h11, h12, h13, h14, h15, h16, h17,
    h18, h19, h20, h21, h22, h23, h24, h25, h26, h27, h28⟩ := hok
  by_cases hc : w.chmodFails.contains bk.config = true
  · rw [if_pos hc] at h
    simp only [Except.ok.injEq, Prod.mk.injEq] at h
    obtain ⟨hw, -⟩ := h
    subst hw
    simp [setupFS, fsWrite, fsChmod, lookupFS, setPerm,
      h1, h2, h3, h4, h5, h6, h7, h8, h9, h10, h11, h12, h13, h14, h15, h16, h17,
      h18, h19, h20, h21, h22, h23, h24, h25, h26, h27, h28,
      Ne.symm h1, Ne.symm h2, Ne.symm h3, Ne.symm h4, Ne.symm h5, Ne.symm h6,
      Ne.symm h7, Ne.symm h8, Ne.symm h9, Ne.symm h10, Ne.symm h11, Ne.symm h12,
      Ne.symm h13, Ne.symm h14, Ne.symm h15, Ne.symm h16, Ne.symm h17, Ne.symm h18,
      Ne.symm h19, Ne.symm h20, Ne.symm h21, Ne.symm h22, Ne.symm h23, Ne.symm h24,
      Ne.symm h25, Ne.symm h26, Ne.symm h27, Ne.symm h28]
  · rw [if_neg hc] at h
    simp only [Except.ok.injEq, Prod.mk.injEq] at h
    obtain ⟨hw, -⟩ := h
    subst hw
    simp [setupFS, fsWrite, fsChmod, lookupFS, setPerm,
      h1, h2, h3, h4, h5, h6, h7, h8, h9, h10, h11, h12, h13, h14, h15, h16, h17,
      h18, h19, h20, h21, h22, h23, h24, h25, h26, h27, h28,
      Ne.symm h1, Ne.symm h2, Ne.symm h3, Ne.symm h4, Ne.symm h5, Ne.symm h6,
      Ne.symm h7, Ne.symm h8, Ne.symm h9, Ne.symm h10, Ne.symm h11, Ne.symm h12,
      Ne.symm h13, Ne.symm h14, Ne.symm h15, Ne.symm h16, Ne.symm h17, Ne.symm h18,
      Ne.symm h19, Ne.symm h20, Ne.symm h21, Ne.symm h22, Ne.symm h23, Ne.symm h24,
      Ne.symm h25, Ne.symm h26, Ne.symm h27, Ne.symm h28]

/-- C8 witness: the permission bits after a concrete successful run. -/
theorem C8_directory_perms_witness :
    lookupFS setupExampleWorld.fs dirs.key = some (Entry.dir 0o710) ∧
    lookupFS setupExampleWorld.fs dirs.cert = some (Entry.dir 0o755) ∧
    lookupFS setupExampleWorld.fs dirs.newCert = some (Entry.dir 0o755) ∧
    lookupFS setupExampleWorld.fs dirs.revok = some (Entry.dir 0o755) ∧
    lookupFS setupExampleWorld.fs dirs.root = some (Entry.dir 0o755) ∧
    0o710 % 8 = 0 :=
  C8_directory_perms dirs books emptyWorld setupExampleWorld [] (by decide) (by rfl)

end EasyCert

namespace EasyCert

/-- C9: setting the RSA key-size flag succeeds exactly when the value parses
as an integer (per `strconv.Atoi`) that is at least 2048 and a multiple of
1024; on any failing value an error is returned and the stored size is left
unchanged (in particular the default `rsaSizeDefault = 2048` is kept if the
flag is never successfully set), and on success the parsed value is stored. -/
theorem C9_rsa_size_set (v : String) (s : Int) :
    ((rsaSizeSet v s).1 = none ↔
      ∃ i, goAtoi v = some i ∧ 2048 ≤ i ∧ i % 1024 = 0) ∧
    ((rsaSizeSet v s).1 ≠ none → (rsaSizeSet v s).2 = s) ∧
    ((rsaSizeSet v s).1 = none → ∃ i, goAtoi v = some i ∧ (rsaSizeSet v s).2 = i) := by
  refine ⟨⟨fun hc => ?_, fun hex => ?_⟩, fun hne => ?_, fun hc => ?_⟩
  · rcases h : goAtoi v with _ | i
    · simp [rsaSizeSet, h] at hc
    · by_cases h1 : i < 2048
      · simp [rsaSizeSet, h, h1] at hc
      by_cases h2 : i % 1024 = 0
      · exact ⟨i, rfl, by omega, h2⟩
      · simp [rsaSizeSet, h, h1, h2] at hc
  · obtain ⟨i, hi, hge, hmod⟩ := hex
    simp [rsaSizeSet, hi, hmod, show ¬i < 2048 by omega]
  · rcases h : goAtoi v with _ | i
    · simp [rsaSizeSet, h]
    · by_cases h1 : i < 2048
      · simp [rsaSizeSet, h, h1]
      by_cases h2 : i % 1024 = 0
      · exact absurd (by simp [rsaSizeSet, h, h1, h2]) hne
      · simp [rsaSizeSet, h, h1, h2]
  · rcases h : goAtoi v with _ | i
    · simp [rsaSizeSet, h] at hc
    · by_cases h1 : i < 2048
      · simp [rsaSizeSet, h, h1] at hc
      by_cases h2 : i % 1024 = 0
      · exact ⟨i, rfl, by simp [rsaSizeSet, h, h1, h2]⟩
      · simp [rsaSizeSet, h, h1, h2] at hc

/-- C9 witness: the characterization evaluated at a failing value. -/
theorem C9_rsa_size_set_witness :
    ((rsaSizeSet "4000" rsaSizeDefault).1 = none ↔
      ∃ i, goAtoi "4000" = some i ∧ 2048 ≤ i ∧ i % 1024 = 0) ∧
    ((rsaSizeSet "4000" rsaSizeDefault).1 ≠ none →
      (rsaSizeSet "4000" rsaSizeDefault).2 = rsaSizeDefault) ∧
    ((rsaSizeSet "4000" rsaSizeDefault).1 = none →
      ∃ i, goAtoi "4000" = some i ∧ (rsaSizeSet "4000" rsaSizeDefault).2 = i) :=
  C9_rsa_size_set "4000" rsaSizeDefault

end EasyCert

namespace EasyCert

/-- A fixed extension of length at least 3 with no separator survives as a
suffix of the joined artifact path, for any separator-free name. -/
theorem goJoin_ext_suffix (dir name ext : String) (hdir : dir ≠ "")
    (hname : '/' ∉ name.data) (hlen : 2 < ext.length) (hexts : '/' ∉ ext.data) :
    ext.data.IsSuffix (goJoin dir (name ++ ext)).data := by
  have hd : (name ++ ext).data = name.data ++ ext.data := String.data_append name ext
  have hb0 : (name ++ ext).data ≠ [] := by
    rw [hd]
    intro hcon
    have := congrArg List.length hcon
    simp at this
    omega
  have hbs : '/' ∉ (name ++ ext).data := by
    rw [hd]
    intro hcon
    rcases List.mem_append.mp hcon with hm | hm
    · exact hname hm
    · exact hexts hm
  have hb1 : (name ++ ext).data ≠ ['.'] := by
    rw [hd]
    intro hcon
    have := congrArg List.length hcon
    simp at this
    omega
  have hb2 : (name ++ ext).data ≠ ['.', '.'] := by
    rw [hd]
    intro hcon
    have := congrArg List.length hcon
    simp at this
    omega
  obtain ⟨pre, hp⟩ := goJoin_suffix dir (name ++ ext) hdir hb0 hbs hb1 hb2
  refine ⟨pre ++ name.data, ?_⟩
  rw [hp, hd, List.append_assoc]

/-- C1: for the request/sign/CA modes, `main` resolves a logical name to the
join of the certificates directory with `name ++ ".crt"`, the join of the
private-keys directory with `name ++ ".key"`, and the join of the root
directory with `name ++ ".csr"`; for a separator-free name each resolved path
ends in the corresponding extension; and resolution is deterministic. -/
theorem C1_path_resolution (d : DirPath) (fl : Flags) (name : String)
    (rest : List String)
    (hroot : d.root ≠ "") (hcert : d.cert ≠ "") (hkey : d.key ≠ "")
    (hname : '/' ∉ name.data)
    (hreq : fl.isRequest = true) (hca : fl.isCA = false) :
    resolvePaths d fl (name :: rest) = .ok name (mkAbs d name) fl.caCert ∧
    (mkAbs d name).cert = goJoin d.cert (name ++ EXT_CERT) ∧
    (mkAbs d name).key = goJoin d.key (name ++ EXT_KEY) ∧
    (mkAbs d name).request = goJoin d.root (name ++ EXT_REQUEST) ∧
    EXT_CERT.data.IsSuffix (mkAbs d name).cert.data ∧
    EXT_KEY.data.IsSuffix (mkAbs d name).key.data ∧
    EXT_REQUEST.data.IsSuffix (mkAbs d name).request.data ∧
    (∀ name2, name2 = name → mkAbs d name2 = mkAbs d name) := by
  refine ⟨?_, rfl, rfl, rfl, ?_, ?_, ?_, fun name2 h2 => by rw [h2]⟩
  · simp [resolvePaths, hreq, hca]
  · exact goJoin_ext_suffix d.cert name EXT_CERT hcert hname (by decide) (by decide)
  · exact goJoin_ext_suffix d.key name EXT_KEY hkey hname (by decide) (by decide)
  · exact goJoin_ext_suffix d.root name EXT_REQUEST hroot hname (by decide) (by decide)

/-- C1 witness: resolution of the name `srv` under the layout for a concrete
home directory, in request mode. -/
theorem C1_path_resolution_witness :
    resolvePaths dirs { isRequest := true } ["srv"] =
      .ok "srv" (mkAbs dirs "srv") ({ isRequest := true } : Flags).caCert ∧
    (mkAbs dirs "srv").cert = goJoin dirs.cert ("srv" ++ EXT_CERT) ∧
    (mkAbs dirs "srv").key = goJoin dirs.key ("srv" ++ EXT_KEY) ∧
    (mkAbs dirs "srv").request = goJoin dirs.root ("srv" ++ EXT_REQUEST) ∧
    EXT_CERT.data.IsSuffix (mkAbs dirs "srv").cert.data ∧
    EXT_KEY.data.IsSuffix (mkAbs dirs "srv").key.data ∧
    EXT_REQUEST.data.IsSuffix (mkAbs dirs "srv").request.data ∧
    (∀ name2, name2 = "srv" → mkAbs dirs name2 = mkAbs dirs "srv") :=
  C1_path_resolution dirs { isRequest := true } "srv" []
    (by decide) (by decide) (by decide) (by decide) rfl rfl

end EasyCert

namespace EasyCert

/-- A glob match decomposes as the pattern directory, a slash, and a
separator-free non-empty base that ends in the extension. -/
theorem globMatch_decomp (dir ext p : String) (hx : ext.data ≠ [])
    (h : globMatch dir ext p = true) :
    ∃ b : List Char, p.data = dir.data ++ '/' :: b ∧ b ≠ [] ∧ (∀ c ∈ b, c ≠ '/') := by
  simp only [globMatch, Bool.and_eq_true, beq_iff_eq, List.all_eq_true] at h
  obtain ⟨⟨htake, hall⟩, hsuf⟩ := h
  refine ⟨p.data.drop (dir.data ++ ['/']).length, ?_, ?_, ?_⟩
  · conv_lhs => rw [← List.take_append_drop (dir.data ++ ['/']).length p.data]
    rw [htake]
    simp
  · intro hcon
    rw [hcon] at hsuf
    rcases List.isSuffixOf_iff_suffix.mp hsuf with ⟨t, ht⟩
    have ht2 : t ++ ext.data = [] := ht
    rcases List.append_eq_nil.mp ht2 with ⟨-, hx2⟩
    exact hx hx2
  · intro c hc
    simpa using hall c hc

/-- C6: every entry printed by the certificate-list and request-list
operations is the base name of a matching artifact path and contains no
directory separator. -/
theorem C6_list_base_names (d : DirPath) (fs : FS) (e : String) :
    (e ∈ listCertNames d fs →
      '/' ∉ e.data ∧ ∃ p ∈ globDir fs d.cert EXT_CERT, e = goBase p) ∧
    (e ∈ listReqNames d fs →
      '/' ∉ e.data ∧ ∃ p ∈ globDir fs d.root EXT_REQUEST, e = goBase p) := by
  constructor
  · intro he
    obtain ⟨p, hp, hbase⟩ := List.mem_map.mp he
    have hmatch : globMatch d.cert EXT_CERT p = true := (List.mem_filter.mp hp).2
    obtain ⟨b, hdecomp, hb0, hbs⟩ := globMatch_decomp d.cert EXT_CERT p (by decide) hmatch
    have hpstr : p = ⟨d.cert.data ++ '/' :: b⟩ := by
      cases p with
      | mk l => cases hdecomp; rfl
    have hgb : goBase p = ⟨b⟩ := by rw [hpstr]; exact goBase_append d.cert.data b hb0 hbs
    refine ⟨?_, p, hp, hbase.symm⟩
    rw [← hbase, hgb]
    intro hcon
    exact hbs '/' hcon rfl
  · intro he
    obtain ⟨p, hp, hbase⟩ := List.mem_map.mp he
    have hmatch : globMatch d.root EXT_REQUEST p = true := (List.mem_filter.mp hp).2
    obtain ⟨b, hdecomp, hb0, hbs⟩ := globMatch_decomp d.root EXT_REQUEST p (by decide) hmatch
    have hpstr : p = ⟨d.root.data ++ '/' :: b⟩ := by
      cases p with
      | mk l => cases hdecomp; rfl
    have hgb : goBase p = ⟨b⟩ := by rw [hpstr]; exact goBase_append d.root.data b hb0 hbs
    refine ⟨?_, p, hp, hbase.symm⟩
    rw [← hbase, hgb]
    intro hcon
    exact hbs '/' hcon rfl

/-- C6 witness: the lists printed over a concrete filesystem holding one
certificate and one request. -/
theorem C6_list_base_names_witness :
    ("srv.crt" ∈ listCertNames dirs listFS ∧
      '/' ∉ ("srv.crt" : String).data ∧
      ∃ p ∈ globDir listFS dirs.cert EXT_CERT, "srv.crt" = goBase p) ∧
    ("srv.csr" ∈ listReqNames dirs listFS ∧
      '/' ∉ ("srv.csr" : String).data ∧
      ∃ p ∈ globDir listFS dirs.root EXT_REQUEST, "srv.csr" = goBase p) :=
  ⟨⟨by decide, (C6_list_base_names dirs listFS "srv.crt").1 (by decide)⟩,
   ⟨by decide, (C6_list_base_names dirs listFS "srv.csr").2 (by decide)⟩⟩

end EasyCert

namespace EasyCert

/-- C7: each file-creating operation aborts with a user-facing message and
leaves the world unchanged when its guarded target already exists: the
request file for `-req`, the certificate for `-sign`, either generated Go
file for `-lang-go`, and the root directory for `-new`. -/
theorem C7_no_overwrite (d : DirPath) (bk : BookPaths) (fp : FilePaths)
    (fl : Flags) (caPath : String) (w : World) :
    (fl.isRequest = true → existsIn w.fs fp.request = true →
      reqSignPhase fp fl w =
        (.fatal ("Certificate request already exists: " ++ fp.request), w, [])) ∧
    (fl.isRequest = false → existsIn w.fs fp.cert = true →
      reqSignPhase fp fl w =
        (.fatal ("Certificate already exists: " ++ fp.cert), w, [])) ∧
    (existsIn w.fs FILE_SERVER_GO = true →
      goLangPhase caPath fp w =
        (.fatal ("File already exists: " ++ FILE_SERVER_GO), w, [])) ∧
    (existsIn w.fs FILE_SERVER_GO = false → existsIn w.fs FILE_CLIENT_GO = true →
      goLangPhase caPath fp w =
        (.fatal ("File already exists: " ++ FILE_CLIENT_GO), w, [])) ∧
    (existsIn w.fs d.root = true →
      runNew d bk w = (some ("The directory structure exists: " ++ d.root), w, [])) := by
  refine ⟨fun hr he => ?_, fun hr he => ?_, fun he => ?_, fun hs he => ?_, fun he => ?_⟩
  · simp [reqSignPhase, hr, he]
  · simp [reqSignPhase, hr, he]
  · simp [goLangPhase, he]
  · simp [goLangPhase, hs, he]
  · simp [runNew, he]

/-- C7 witness: the request guard and the initializer guard fire on concrete
worlds where the targets exist. -/
theorem C7_no_overwrite_witness :
    reqSignPhase (mkAbs dirs "srv") { isRequest := true } reqWorld =
      (.fatal ("Certificate request already exists: " ++ (mkAbs dirs "srv").request),
        reqWorld, []) ∧
    runNew dirs books rootWorld =
      (some ("The directory structure exists: " ++ dirs.root), rootWorld, []) :=
  ⟨(C7_no_overwrite dirs books (mkAbs dirs "srv") { isRequest := true } "" reqWorld).1
      rfl (by decide),
   (C7_no_overwrite dirs books (mkAbs dirs "srv") { isRequest := true } "" rootWorld).2.2.2.2
      (by decide)⟩

/-- C3: in every mode that requires a positional name or filename argument
(`-chk`, `-cat`, `-i`, `-req`, `-sign` — without `-ca`, which supplies its
own name), an invocation with no positional argument ends in a runtime panic
(index out of range on the argument slice), not in a `log.Fatal` error
message and not in a normal exit. -/
theorem C3_missing_argument (d : DirPath) (bk : BookPaths) (fl : Flags) (w : World)
    (hn : fl.nflag ≠ 0) (hlc : fl.isCertList = false) (hlr : fl.isReqList = false)
    (hca : fl.isCA = false) (hgo : fl.isGoLang = false) (hnew : fl.isNew = false)
    (hmode : fl.isRequest = true ∨ fl.isSignReq = true ∨ fl.isCheck = true ∨
      fl.isCat = true ∨ fl.isInfo = true) :
    (runMain d bk fl [] w).1 = Outcome.panicked := by
  have hres : resolvePaths d fl [] = .panicked := by
    cases hr : fl.isRequest <;> cases hs : fl.isSignReq <;>
      simp [resolvePaths, hca, hgo, hnew, hr, hs]
  simp [runMain, hn, hlc, hlr, hres]

/-- C3 witness: `easycert -chk -cert` with no positional argument panics. -/
theorem C3_missing_argument_witness :
    (runMain dirs books { isCheck := true, isCert := true, nflag := 2 } []
      emptyWorld).1 = Outcome.panicked :=
  C3_missing_argument dirs books { isCheck := true, isCert := true, nflag := 2 }
    emptyWorld (by decide) rfl rfl rfl rfl rfl
    (Or.inr (Or.inr (Or.inl rfl)))

end EasyCert

namespace EasyCert

theorem reqSignPhase_ops (fp : FilePaths) (fl : Flags) (w : World) :
    (reqSignPhase fp fl w).2.2 ∈
      ([[], [Op.request], [Op.request, Op.sign], [Op.sign]] : List (List Op)) := by
  simp only [reqSignPhase]
  by_cases r : fl.isRequest = true
  · rw [if_pos r]
    by_cases e1 : existsIn w.fs fp.request = true
    · rw [if_pos e1]; simp
    rw [if_neg e1]
    by_cases s : fl.isSignReq = true
    · rw [if_pos s]
      by_cases e2 : existsIn (newRequest fp w).fs fp.cert = true
      · rw [if_pos e2]; simp
      · rw [if_neg e2]; simp
    · rw [if_neg s]; simp
  · rw [if_neg r]
    by_cases e : existsIn w.fs fp.cert = true
    · rw [if_pos e]; simp
    · rw [if_neg e]; simp

theorem goLangPhase_ops (caPath : String) (fp : FilePaths) (w : World) :
    (goLangPhase caPath fp w).2.2 ∈ ([[], [Op.golang]] : List (List Op)) := by
  simp only [goLangPhase]
  by_cases c1 : existsIn w.fs FILE_SERVER_GO = true
  · rw [if_pos c1]; simp
  rw [if_neg c1]
  by_cases c2 : existsIn w.fs FILE_CLIENT_GO = true
  · rw [if_pos c2]; simp
  rw [if_neg c2]
  rcases h : cert2Lang caPath fp w with e | w2 <;> simp [h]

theorem dispatchPhase_ops (d : DirPath) (bk : BookPaths) (fl : Flags)
    (fp : FilePaths) (caPath : String) (w : World) :
    (dispatchPhase d bk fl fp caPath w).2.2 ∈
      ([[], [Op.check], [Op.cat], [Op.info], [Op.request], [Op.request, Op.sign],
        [Op.sign], [Op.golang], [Op.newDir], [Op.newDir, Op.ca 10], [Op.ca 10]] :
        List (List Op)) := by
  unfold dispatchPhase
  by_cases c1 : fl.isCheck = true
  · rw [if_pos c1]
    by_cases b : (fl.isCert || fl.isKey) = true
    · rw [if_pos b]; simp
    · rw [if_neg b]; simp
  rw [if_neg c1]
  by_cases c2 : fl.isCat = true
  · rw [if_pos c2]
    by_cases b : (fl.isCert || fl.isKey) = true
    · rw [if_pos b]; simp
    · rw [if_neg b]; simp
  rw [if_neg c2]
  by_cases c3 : fl.isInfo = true
  · rw [if_pos c3]
    by_cases b : (fl.isFullInfo || fl.isEndDate || fl.isHash || fl.isIssuer || fl.isName) = true
    · rw [if_pos b]; simp
    · rw [if_neg b]; simp
  rw [if_neg c3]
  by_cases c4 : (fl.isRequest || fl.isSignReq) = true
  · rw [if_pos c4]
    have h := reqSignPhase_ops fp fl w
    simp only [List.mem_cons, List.not_mem_nil, or_false] at h ⊢
    rcases h with h | h | h | h <;> simp [h]
  rw [if_neg c4]
  by_cases c5 : fl.isGoLang = true
  · rw [if_pos c5]
    have h := goLangPhase_ops caPath fp w
    simp only [List.mem_cons, List.not_mem_nil, or_false] at h ⊢
    rcases h with h | h <;> simp [h]
  rw [if_neg c5]
  by_cases c6 : fl.isNew = true
  · rw [if_pos c6]
    rcases hrn : runNew d bk w with ⟨_ | m, w2, lg⟩
    · simp only [hrn]
      by_cases c7 : fl.isCA = true
      · rw [if_pos c7]; simp
      · rw [if_neg c7]; simp
    · simp only [hrn]; simp
  rw [if_neg c6]
  by_cases c7 : fl.isCA = true
  · rw [if_pos c7]; simp
  · rw [if_neg c7]; simp

/-- The complete list of operation sequences a single invocation can
perform. -/
theorem runMain_ops (d : DirPath) (bk : BookPaths) (fl : Flags) (args : List String)
    (w : World) :
    (runMain d bk fl args w).2.2 ∈
      ([[], [Op.listCerts], [Op.listReqs], [Op.listCerts, Op.listReqs],
        [Op.check], [Op.cat], [Op.info], [Op.request], [Op.request, Op.sign],
        [Op.sign], [Op.golang], [Op.newDir], [Op.newDir, Op.ca 10], [Op.ca 10]] :
        List (List Op)) := by
  unfold runMain
  by_cases n0 : fl.nflag = 0
  · rw [if_pos n0]; simp
  rw [if_neg n0]
  by_cases l1 : (args.isEmpty && (fl.isCertList || fl.isReqList)) = true
  · rw [if_pos l1]
    by_cases l2 : fl.isReqList = true
    · rw [if_pos l2]
      by_cases l3 : fl.isCertList = true
      · rw [if_pos l3]; simp
      · rw [if_neg l3]; simp
    · rw [if_neg l2]; simp
  rw [if_neg l1]
  cases hres : resolvePaths d fl args with
  | panicked =>
    show ([] : List Op) ∈ _
    exact List.mem_cons_self _ _
  | fatal m =>
    show ([] : List Op) ∈ _
    exact List.mem_cons_self _ _
  | ok fname fp caPath =>
    show (dispatchPhase d bk fl fp caPath w).2.2 ∈ _
    have h := dispatchPhase_ops d bk fl fp caPath w
    simp only [List.mem_cons, List.not_mem_nil, or_false] at h ⊢
    rcases h with h | h | h | h | h | h | h | h | h | h | h <;> simp [h]

/-- C5 (amended): an invocation performs at most one operation mode, except
for the three documented combinations: `-lc -lr` lists certificates then
requests, `-req -sign` creates a request and immediately signs it, and
`-new -ca` initializes the layout and then builds the CA. -/
theorem C5_modes (d : DirPath) (bk : BookPaths) (fl : Flags) (args : List String)
    (w : World) :
    (runMain d bk fl args w).2.2.length ≤ 1 ∨
    (runMain d bk fl args w).2.2 = [Op.listCerts, Op.listReqs] ∨
    (runMain d bk fl args w).2.2 = [Op.request, Op.sign] ∨
    (runMain d bk fl args w).2.2 = [Op.newDir, Op.ca 10] := by
  have h := runMain_ops d bk fl args w
  simp only [List.mem_cons, List.not_mem_nil, or_false] at h
  rcases h with h | h | h | h | h | h | h | h | h | h | h | h | h | h <;> simp [h]

/-- C5 counterexample: the single invocation `easycert -req -sign srv`
performs both the request-creation mode and the signing mode, so the modes
are not mutually exclusive. -/
theorem C5_counterexample :
    (runMain dirs books { isRequest := true, isSignReq := true, nflag := 2 }
      ["srv"] emptyWorld).2.2 = [Op.request, Op.sign] ∧
    ¬((runMain dirs books { isRequest := true, isSignReq := true, nflag := 2 }
      ["srv"] emptyWorld).2.2.length ≤ 1) :=
  ⟨by decide, by decide⟩

end EasyCert

namespace EasyCert

/-- C10: whenever the `-ca` mode is selected, path resolution forces the
artifact name to the fixed `"ca"` regardless of any positional argument, and
any CA-building operation performed in the invocation uses a validity of
exactly 10 years, overriding the `-years` flag value. -/
theorem C10_ca_forced (d : DirPath) (bk : BookPaths) (fl : Flags)
    (args : List String) (w : World) (y : Int) (hca : fl.isCA = true) :
    resolvePaths d fl args = .ok NAME_CA (mkAbs d NAME_CA) fl.caCert ∧
    (Op.ca y ∈ (runMain d bk fl args w).2.2 → y = 10) := by
  constructor
  · simp [resolvePaths, hca]
  · intro hmem
    have h := runMain_ops d bk fl args w
    simp only [List.mem_cons, List.not_mem_nil, or_false] at h
    rcases h with h | h | h | h | h | h | h | h | h | h | h | h | h | h <;>
      (rw [h] at hmem; simp_all)

/-- C10 witness: `-ca` with `-years 5` and a positional argument `bob` still
resolves the name `ca` and builds the CA with 10 years. -/
theorem C10_ca_forced_witness :
    (resolvePaths dirs { isCA := true, years := 5, nflag := 2 } ["bob"] =
      .ok NAME_CA (mkAbs dirs NAME_CA)
        ({ isCA := true, years := 5, nflag := 2 } : Flags).caCert) ∧
    Op.ca 10 ∈ (runMain dirs books { isCA := true, years := 5, nflag := 2 }
      ["bob"] emptyWorld).2.2 ∧
    (10 : Int) = 10 :=
  ⟨(C10_ca_forced dirs books { isCA := true, years := 5, nflag := 2 } ["bob"]
      emptyWorld 10 rfl).1,
   by decide,
   (C10_ca_forced dirs books { isCA := true, years := 5, nflag := 2 } ["bob"]
      emptyWorld 10 rfl).2 (by decide)⟩

end EasyCert
